import Mathlib

/-
Verification of the pattern resolution engine: a shallow embedding of the
two resolver implementations (the CLI script and the dry-run API function)
together with proofs of the specified properties.

Python dictionaries are modelled as association lists with first-match
lookup and in-place replacement on update; optional YAML fields are
modelled with Option; Python exceptions are modelled with Except.
-/

set_option autoImplicit false

/-- YAML-style scalar, list and mapping values carried in requests,
catalog entries and resolved tfvars. -/
inductive Value where
  | str : String → Value
  | int : Int → Value
  | bool : Bool → Value
  | null : Value
  | list : List Value → Value
  | dict : List (String × Value) → Value

/-- First-match lookup in an association list; Python `d[k]` / `d.get(k)`. -/
def dget? {α : Type} : List (String × α) → String → Option α
  | [], _ => none
  | p :: rest, key => if p.1 == key then some p.2 else dget? rest key

/-- Python `k in d` on a dict. -/
def dmem {α : Type} (d : List (String × α)) (key : String) : Bool :=
  (dget? d key).isSome

/-- Python `d.get(k, default)`. -/
def dgetD {α : Type} (d : List (String × α)) (key : String) (dflt : α) : α :=
  (dget? d key).getD dflt

/-- Python `d[k] = v`: replace the value in place when the key is present,
append the binding otherwise. -/
def dset {α : Type} (d : List (String × α)) (key : String) (v : α) : List (String × α) :=
  if dmem d key then d.map (fun p => if p.1 == key then (key, v) else p)
  else d ++ [(key, v)]

/-- Python `d.update(other)`: fold `d[k] = v` over the items of the other dict. -/
def dupdate {α : Type} (d other : List (String × α)) : List (String × α) :=
  other.foldl (fun acc p => dset acc p.1 p.2) d

/-- Whether a Python value equals a given string dict key: true exactly for
the equal string, false for every non-string value. -/
def strKeyMatches (k : String) : Value → Bool
  | .str s => k == s
  | _ => false

/-- Lookup in a string-keyed dict by an arbitrary value, Python `d[v]`
where `v` need not be a string (`size in sizing` and friends). -/
def vget? {α : Type} : List (String × α) → Value → Option α
  | [], _ => none
  | p :: rest, key => if strKeyMatches p.1 key then some p.2 else vget? rest key

mutual

/-- Python `str()` of a value, as interpolated by f-strings. -/
def pyStr : Value → String
  | .str s => s
  | .int n => toString n
  | .bool b => if b then "True" else "False"
  | .null => "None"
  | .list l => "[" ++ pyStrList l ++ "]"
  | .dict d => "\x7b" ++ pyStrDict d ++ "\x7d"

/-- Python `repr()` of a value, used for elements inside containers. -/
def pyValueRepr : Value → String
  | .str s => "\x27" ++ s ++ "\x27"
  | .int n => toString n
  | .bool b => if b then "True" else "False"
  | .null => "None"
  | .list l => "[" ++ pyStrList l ++ "]"
  | .dict d => "\x7b" ++ pyStrDict d ++ "\x7d"

/-- Comma-separated reprs of the elements of a Python list. -/
def pyStrList : List Value → String
  | [] => ""
  | [v] => pyValueRepr v
  | v :: w :: rest => pyValueRepr v ++ ", " ++ pyStrList (w :: rest)

/-- Comma-separated `key: value` reprs of the items of a Python dict. -/
def pyStrDict : List (String × Value) → String
  | [] => ""
  | [p] => "\x27" ++ p.1 ++ "\x27: " ++ pyValueRepr p.2
  | p :: q :: rest => "\x27" ++ p.1 ++ "\x27: " ++ pyValueRepr p.2 ++ ", " ++ pyStrDict (q :: rest)

end

/-- Python `str()` of a list of strings, e.g. the rendering of
`list(self.patterns.keys())` or of a validation error list in f-strings. -/
def pyReprStrList (l : List String) : String :=
  "[" ++ String.intercalate ", " (l.map (fun s => "\x27" ++ s ++ "\x27")) ++ "]"

/-- The `metadata` block of a request document; a field is `none` when the
corresponding key is absent from the YAML mapping. -/
structure Metadata where
  project : Option String
  environment : Option String
  business_unit : Option String
  owners : Option Value
  location : Option String

/-- One request document. -/
structure Request where
  action : Option String
  pattern : Option String
  pattern_version : Option String
  metadata : Option Metadata
  config : List (String × Value)

/-- The `config.optional` block of a catalog pattern, which is sometimes a
list of single-key mappings and sometimes a flat mapping. -/
inductive OptionalCfg where
  | ofList : List (List (String × Value)) → OptionalCfg
  | ofDict : List (String × Value) → OptionalCfg

/-- One pattern definition from the catalog, restricted to the fields the
resolver reads. `required` models `config.required` (default `[]`),
`sizing` maps size, then environment, to a parameter dict, and
`estimated_costs` maps size, then environment, to a monthly cost. -/
structure Pattern where
  name : String
  required : List String
  optional : OptionalCfg
  sizing : List (String × List (String × List (String × Value)))
  estimated_costs : List (String × List (String × Value))

/-- The sizing-defaults table. -/
structure SizingDefaults where
  environment_defaults : List (String × String)
  common_skus : List (String × List (String × Value))
  conditional_features : List (String × List (String × Value))

/-- Result of `validate_request`. -/
structure Validation where
  valid : Bool
  errors : List String
  warnings : List String
  deriving DecidableEq

/-- A Python exception escaping the resolver: `ValueError` (raised on
validation failure) or `KeyError` (raised by a failing dict index). -/
inductive PyError where
  | valueError : String → PyError
  | keyError : String → PyError
  deriving DecidableEq

/-- One entry of the list returned by `resolve_all`. -/
structure DocResult where
  index : Nat
  action : String
  pattern : String
  valid : Bool
  errors : List String
  tfvars : Option (List (String × Value))
  state_key : Option String

/-- Error message for an action outside create/destroy. -/
def invalidActionMsg (action : String) : String :=
  "Invalid action: " ++ action ++ ". Must be \x27create\x27 or \x27destroy\x27"

/-- Error message for an environment outside dev/staging/prod. -/
def invalidEnvMsg (env : String) : String :=
  "Invalid environment: " ++ env ++ ". Must be dev, staging, or prod"

/-- Error message for a pattern name not present in the catalog. -/
def unknownPatternMsg (pattern_name : String) (keys : List String) : String :=
  "Unknown pattern: " ++ pattern_name ++ ". Available: " ++ pyReprStrList keys

/-- Error message for a missing required config field. -/
def missingConfigMsg (f : String) : String :=
  "Missing required config field: " ++ f

/-- Default t-shirt size for an environment
(`_get_default_size`, identical in both implementations). -/
def get_default_size (sd : SizingDefaults) (environment : String) : String :=
  dgetD sd.environment_defaults environment "small"

/-- Fallback to `sizing_defaults.common_skus` when the pattern has no
sizing entry for the requested (size, environment). -/
def common_sku_fallback (sd : SizingDefaults) (pat : Pattern) (size : Value) :
    List (String × Value) :=
  match dget? sd.common_skus pat.name with
  | none => []
  | some size_map =>
    match vget? size_map size with
    | none => []
    | some (.dict d) => d
    | some sku => [("sku", sku)]

/-- Sizing resolution (`_resolve_sizing`, identical in both
implementations): the own (size, environment) entry of the pattern when
present, otherwise the common-SKU fallback. -/
def resolve_sizing (sd : SizingDefaults) (pat : Pattern) (size : Value) (environment : String) :
    List (String × Value) :=
  match vget? pat.sizing size with
  | some env_map =>
    match dget? env_map environment with
    | some values => values
    | none => common_sku_fallback sd pat size
  | none => common_sku_fallback sd pat size

/-- Conditional-feature application (`_apply_conditionals`, identical in
both implementations): each feature is written only when its key is not
already present. -/
def apply_conditionals (sd : SizingDefaults) (tfvars : List (String × Value))
    (environment : String) : List (String × Value) :=
  sd.conditional_features.foldl
    (fun acc feature =>
      if dmem acc feature.1 then acc
      else dset acc feature.1 (dgetD feature.2 environment (.bool false)))
    tfvars

/-- Normalisation of `pattern.config.optional` performed inline by both
`resolve` implementations: a list of mappings is merged into one dict, a
flat mapping is used as is. -/
def optional_to_dict : OptionalCfg → List (String × Value)
  | .ofList items => items.foldl (fun acc item => dupdate acc item) []
  | .ofDict entries => entries

/-- Validation of the `action` field: one error when it is neither
`create` nor `destroy`; omission defaults to `create`. -/
def action_errors (request : Request) : List String :=
  let action := request.action.getD "create"
  if action == "create" || action == "destroy" then [] else [invalidActionMsg action]

/-- Validation of the presence of the `pattern` field. -/
def pattern_field_errors (request : Request) : List String :=
  match request.pattern with
  | none => ["Missing required field: pattern"]
  | some _ => []

/-- Validation of the `metadata` block: presence of the block, presence of
its four required fields, and membership of the environment in
dev/staging/prod. -/
def metadata_errors (request : Request) : List String :=
  match request.metadata with
  | none => ["Missing required field: metadata"]
  | some meta =>
    (if meta.project.isNone then ["Missing required metadata field: project"] else []) ++
    (if meta.environment.isNone then ["Missing required metadata field: environment"] else []) ++
    (if meta.business_unit.isNone then ["Missing required metadata field: business_unit"] else []) ++
    (if meta.owners.isNone then ["Missing required metadata field: owners"] else []) ++
    (let env := meta.environment.getD ""
     if env == "dev" || env == "staging" || env == "prod" then [] else [invalidEnvMsg env])

/-- Validation of catalog membership of the pattern name; skipped for a
falsy (absent or empty) name. -/
def unknown_pattern_errors (patterns : List (String × Pattern)) (request : Request) :
    List String :=
  let pattern_name := request.pattern.getD ""
  if pattern_name != "" && !(dmem patterns pattern_name) then
    [unknownPatternMsg pattern_name (patterns.map (fun p => p.1))]
  else []

/-- Validation of required config fields, performed only when the pattern
name is a catalog key. -/
def config_errors (patterns : List (String × Pattern)) (request : Request) : List String :=
  match dget? patterns (request.pattern.getD "") with
  | some pat => (pat.required.filter (fun f => !(dmem request.config f))).map missingConfigMsg
  | none => []

/-- The concatenated error list of `validate_request`, identical in both
implementations and in the order the source appends them. -/
def validation_errors (patterns : List (String × Pattern)) (request : Request) : List String :=
  action_errors request ++ pattern_field_errors request ++ metadata_errors request ++
    unknown_pattern_errors patterns request ++ config_errors patterns request

namespace Scripts

/-- `PatternResolver.validate_request` from `scripts/resolve-pattern.py`. -/
def validate_request (patterns : List (String × Pattern)) (request : Request) : Validation :=
  let errors := validation_errors patterns request
  { valid := errors.isEmpty, errors := errors, warnings := [] }

/-- `PatternResolver.resolve` from `scripts/resolve-pattern.py`.
A dict index on a missing key is a `KeyError`. -/
def resolve (patterns : List (String × Pattern)) (sd : SizingDefaults) (request : Request) :
    Except PyError (List (String × Value)) :=
  let validation := validate_request patterns request
  if !validation.valid then
    .error (.valueError ("Invalid request: " ++ pyReprStrList validation.errors))
  else
    match request.pattern with
    | none => .error (.keyError "pattern")
    | some pattern_name =>
      match dget? patterns pattern_name with
      | none => .error (.keyError pattern_name)
      | some pat =>
        match request.metadata with
        | none => .error (.keyError "metadata")
        | some metadata =>
          match metadata.environment, metadata.project, metadata.business_unit, metadata.owners with
          | some environment, some project, some business_unit, some owners =>
            let config := request.config
            let size := dgetD config "size" (.str (get_default_size sd environment))
            let sizing := resolve_sizing sd pat size environment
            let tfvars : List (String × Value) :=
              [("project", .str project),
               ("environment", .str environment),
               ("business_unit", .str business_unit),
               ("owners", owners),
               ("location", .str (metadata.location.getD "eastus")),
               ("pattern_name", .str pattern_name),
               ("name", dgetD config "name" (.str project))]
            let tfvars := dupdate tfvars sizing
            let optional_config := optional_to_dict pat.optional
            let tfvars := optional_config.foldl
              (fun acc kv =>
                if dmem config kv.1 then dset acc kv.1 (dgetD config kv.1 .null)
                else
                  match kv.2 with
                  | .dict spec =>
                    if dmem spec "default" then dset acc kv.1 (dgetD spec "default" .null)
                    else acc
                  | _ => acc)
              tfvars
            .ok (apply_conditionals sd tfvars environment)
          | _, _, _, _ => .error (.keyError "metadata field")

/-- `PatternResolver.get_cost_estimate` from `scripts/resolve-pattern.py`:
a missing cost entry yields an error dict. -/
def get_cost_estimate (patterns : List (String × Pattern)) (sd : SizingDefaults)
    (request : Request) : List (String × Value) :=
  let pattern_name := request.pattern.getD ""
  match dget? patterns pattern_name with
  | none => [("error", .str ("Unknown pattern: " ++ pattern_name))]
  | some pat =>
    let config := request.config
    let environment := (request.metadata.bind (fun m => m.environment)).getD "dev"
    let size := dgetD config "size" (.str (get_default_size sd environment))
    match vget? pat.estimated_costs size with
    | some env_map =>
      match dget? env_map environment with
      | some cost =>
        [("pattern", .str pattern_name), ("size", size), ("environment", .str environment),
         ("estimated_monthly_cost_usd", cost)]
      | none => [("error", .str "Cost estimate not available")]
    | none => [("error", .str "Cost estimate not available")]

/-- `PatternResolver._compute_state_key` from `scripts/resolve-pattern.py`. -/
def compute_state_key (request : Request) : String :=
  let pattern_name := request.pattern.getD "unknown"
  let business_unit := (request.metadata.bind (fun m => m.business_unit)).getD "default"
  let environment := (request.metadata.bind (fun m => m.environment)).getD "dev"
  let project := (request.metadata.bind (fun m => m.project)).getD "unknown"
  let name := dgetD request.config "name" (.str pattern_name)
  business_unit ++ "/" ++ environment ++ "/" ++ project ++ "/" ++ pattern_name ++ "-" ++
    pyStr name ++ "/terraform.tfstate"

/-- Loop of `PatternResolver.resolve_all`, carrying the enumeration index.
Only `ValueError` is caught by the per-document try/except; a `KeyError`
escaping `resolve` aborts the whole call. -/
def resolve_all_go (patterns : List (String × Pattern)) (sd : SizingDefaults) :
    Nat → List (Option Request) → Except PyError (List DocResult)
  | _, [] => .ok []
  | i, none :: rest => resolve_all_go patterns sd (i + 1) rest
  | i, some doc :: rest =>
    let action := doc.action.getD "create"
    let pattern_name := doc.pattern.getD "unknown"
    let validation := validate_request patterns doc
    let entry : Except PyError DocResult :=
      if !validation.valid then
        .ok ⟨i, action, pattern_name, false, validation.errors, none, none⟩
      else
        match resolve patterns sd doc with
        | .ok tfvars =>
          .ok ⟨i, action, pattern_name, true, [], some tfvars, some (compute_state_key doc)⟩
        | .error (.valueError msg) =>
          .ok ⟨i, action, pattern_name, false, [msg], none, none⟩
        | .error (.keyError k) => .error (.keyError k)
    match entry with
    | .ok e =>
      match resolve_all_go patterns sd (i + 1) rest with
      | .ok results => .ok (e :: results)
      | .error err => .error err
    | .error err => .error err

/-- `PatternResolver.resolve_all` from `scripts/resolve-pattern.py`:
enumerate the documents, skip `None` ones, validate and resolve each. -/
def resolve_all (patterns : List (String × Pattern)) (sd : SizingDefaults)
    (documents : List (Option Request)) : Except PyError (List DocResult) :=
  resolve_all_go patterns sd 0 documents

/-- Validation and resolution of one document alone, exactly the body of
the `resolve_all` loop for the document at position `i`; used to state
that `resolve_all` treats documents independently. -/
def resolve_doc_alone (patterns : List (String × Pattern)) (sd : SizingDefaults) (i : Nat)
    (doc : Request) : Except PyError DocResult :=
  let action := doc.action.getD "create"
  let pattern_name := doc.pattern.getD "unknown"
  let validation := validate_request patterns doc
  if !validation.valid then
    .ok ⟨i, action, pattern_name, false, validation.errors, none, none⟩
  else
    match resolve patterns sd doc with
    | .ok tfvars =>
      .ok ⟨i, action, pattern_name, true, [], some tfvars, some (compute_state_key doc)⟩
    | .error (.valueError msg) =>
      .ok ⟨i, action, pattern_name, false, [msg], none, none⟩
    | .error (.keyError k) => .error (.keyError k)

/-- `PatternResolver.compute_execution_order` from
`scripts/resolve-pattern.py` (textually identical in the dry-run
function): collect indices of valid destroys, then valid non-destroys. -/
def compute_execution_order (results : List DocResult) : List Nat :=
  let pairs := results.foldl
    (fun (acc : List Nat × List Nat) result =>
      if !result.valid then acc
      else if result.action == "destroy" then (acc.1 ++ [result.index], acc.2)
      else (acc.1, acc.2 ++ [result.index]))
    ([], [])
  pairs.1 ++ pairs.2

end Scripts

namespace DryRun

/-- `PatternResolver.validate_request` from the dry-run API function: the
same error rules as the script, plus a warning when `pattern_version` is
absent. -/
def validate_request (patterns : List (String × Pattern)) (request : Request) : Validation :=
  let errors := validation_errors patterns request
  { valid := errors.isEmpty
    errors := errors
    warnings :=
      if request.pattern_version.isNone then
        ["pattern_version not specified; will use latest version"]
      else [] }

/-- `PatternResolver.resolve` from the dry-run API function. -/
def resolve (patterns : List (String × Pattern)) (sd : SizingDefaults) (request : Request) :
    Except PyError (List (String × Value)) :=
  let validation := validate_request patterns request
  if !validation.valid then
    .error (.valueError ("Invalid request: " ++ pyReprStrList validation.errors))
  else
    match request.pattern with
    | none => .error (.keyError "pattern")
    | some pattern_name =>
      match dget? patterns pattern_name with
      | none => .error (.keyError pattern_name)
      | some pat =>
        match request.metadata with
        | none => .error (.keyError "metadata")
        | some metadata =>
          match metadata.environment, metadata.project, metadata.business_unit, metadata.owners with
          | some environment, some project, some business_unit, some owners =>
            let config := request.config
            let size := dgetD config "size" (.str (get_default_size sd environment))
            let sizing := resolve_sizing sd pat size environment
            let tfvars : List (String × Value) :=
              [("project", .str project),
               ("environment", .str environment),
               ("business_unit", .str business_unit),
               ("owners", owners),
               ("location", .str (metadata.location.getD "eastus")),
               ("pattern_name", .str pattern_name),
               ("name", dgetD config "name" (.str project))]
            let tfvars := dupdate tfvars sizing
            let optional_config := optional_to_dict pat.optional
            let tfvars := optional_config.foldl
              (fun acc kv =>
                if dmem config kv.1 then dset acc kv.1 (dgetD config kv.1 .null)
                else
                  match kv.2 with
                  | .dict spec =>
                    if dmem spec "default" then dset acc kv.1 (dgetD spec "default" .null)
                    else acc
                  | _ => acc)
              tfvars
            .ok (apply_conditionals sd tfvars environment)
          | _, _, _, _ => .error (.keyError "metadata field")

/-- `PatternResolver.get_cost_estimate` from the dry-run API function: a
missing cost entry yields a null `estimated_monthly_cost_usd`. -/
def get_cost_estimate (patterns : List (String × Pattern)) (sd : SizingDefaults)
    (request : Request) : List (String × Value) :=
  let pattern_name := request.pattern.getD ""
  match dget? patterns pattern_name with
  | none => [("error", .str ("Unknown pattern: " ++ pattern_name))]
  | some pat =>
    let config := request.config
    let environment := (request.metadata.bind (fun m => m.environment)).getD "dev"
    let size := dgetD config "size" (.str (get_default_size sd environment))
    match vget? pat.estimated_costs size with
    | some env_map =>
      match dget? env_map environment with
      | some cost =>
        [("pattern", .str pattern_name), ("size", size), ("environment", .str environment),
         ("estimated_monthly_cost_usd", cost)]
      | none => [("estimated_monthly_cost_usd", .null)]
    | none => [("estimated_monthly_cost_usd", .null)]

end DryRun

/-! ### Concrete catalog, sizing defaults and requests used as witnesses -/

/-- A complete dev metadata block. -/
def mdDev : Metadata :=
  { project := some "myapp", environment := some "dev", business_unit := some "eng",
    owners := some (.list [.str "a@co.com"]), location := none }

/-- A complete staging metadata block. -/
def mdStaging : Metadata :=
  { project := some "svc", environment := some "staging", business_unit := some "ops",
    owners := some (.list [.str "b@co.com"]), location := none }

/-- A keyvault pattern: requires `name`, declares optional `sku` and
`purge_protection`, sizes small/dev, and has one cost entry. -/
def kvPattern : Pattern :=
  { name := "keyvault", required := ["name"],
    optional := .ofDict
      [("sku", .dict [("type", .str "string")]),
       ("purge_protection", .dict [("default", .bool true)])],
    sizing := [("small", [("dev", [("sku", .str "standard"), ("soft_delete_days", .int 7)])])],
    estimated_costs := [("small", [("dev", .int 5)])] }

/-- A webapp pattern with no required config fields. -/
def webPattern : Pattern :=
  { name := "webapp", required := [], optional := .ofDict [],
    sizing := [("small", [("dev", [("sku", .str "B1")])])],
    estimated_costs := [] }

/-- A two-pattern catalog. -/
def catalog0 : List (String × Pattern) := [("keyvault", kvPattern), ("webapp", webPattern)]

/-- A sizing-defaults table with two conditional features. -/
def sd0 : SizingDefaults :=
  { environment_defaults := [("dev", "small"), ("prod", "large")],
    common_skus := [],
    conditional_features :=
      [("enable_diagnostics", [("prod", .bool true)]),
       ("geo_redundant_backup", [("prod", .bool true)])] }

/-- A valid keyvault request overriding the optional `sku` field that the
sizing layer also sets. -/
def reqSecrets : Request :=
  { action := none, pattern := some "keyvault", pattern_version := none,
    metadata := some mdDev, config := [("name", .str "secrets"), ("sku", .str "premium")] }

/-- A valid webapp request whose config omits `name`. -/
def reqNoName : Request :=
  { action := none, pattern := some "webapp", pattern_version := none,
    metadata := some mdDev, config := [] }

/-- A keyvault request for staging, where no cost entry exists. -/
def reqStaging : Request :=
  { action := none, pattern := some "keyvault", pattern_version := none,
    metadata := some mdStaging, config := [("name", .str "s")] }

/-- A request whose pattern field is present but empty: it passes
validation (the unknown-pattern check skips falsy names) yet `resolve`
hits a failing dict index. -/
def reqEmptyPattern : Request :=
  { action := none, pattern := some "", pattern_version := none,
    metadata := some mdDev, config := [] }

/-- An invalid request: metadata missing and pattern unknown. -/
def reqInvalid : Request :=
  { action := none, pattern := some "nope", pattern_version := none,
    metadata := none, config := [] }

/-- A keyvault request whose config omits the required `name` field. -/
def reqMissingName : Request :=
  { action := none, pattern := some "keyvault", pattern_version := none,
    metadata := some mdDev, config := [] }

/-- The tfvars produced for `reqSecrets`. -/
def tfvSecrets : List (String × Value) :=
  match Scripts.resolve catalog0 sd0 reqSecrets with
  | .ok t => t
  | .error _ => []

/-- The tfvars produced for `reqNoName`. -/
def tfvNoName : List (String × Value) :=
  match Scripts.resolve catalog0 sd0 reqNoName with
  | .ok t => t
  | .error _ => []

/-- A batch whose non-None documents all validate or fail with a caught
`ValueError`. -/
def docsBatch : List (Option Request) := [some reqSecrets, none, some reqInvalid]

/-- A batch whose first document passes validation but raises an uncaught
`KeyError` in `resolve`, aborting the whole batch. -/
def docsAborted : List (Option Request) := [some reqEmptyPattern, some reqSecrets]

/-- The per-document results of the execution-order law stated in the
specification. -/
def c1results : List DocResult :=
  [⟨0, "create", "p", true, [], none, none⟩,
   ⟨1, "destroy", "p", true, [], none, none⟩,
   ⟨2, "create", "p", true, [], none, none⟩,
   ⟨3, "destroy", "p", false, [], none, none⟩]

/-! ### Association-list lemmas -/

theorem option_some_or {α : Type} (a : α) (o : Option α) : (some a).or o = some a := rfl

theorem option_none_or {α : Type} (o : Option α) : Option.or none o = o := rfl

theorem dget?_cons_eq {α : Type} {p : String × α} {rest : List (String × α)} {k : String}
    (h : (p.1 == k) = true) : dget? (p :: rest) k = some p.2 := by
  simp [dget?, h]

theorem dget?_cons_ne {α : Type} {p : String × α} {rest : List (String × α)} {k : String}
    (h : (p.1 == k) = false) : dget? (p :: rest) k = dget? rest k := by
  simp [dget?, h]

theorem dmem_cons_ne {α : Type} {p : String × α} {rest : List (String × α)} {k : String}
    (h : (p.1 == k) = false) : dmem (p :: rest) k = dmem rest k := by
  simp [dmem, dget?, h]

theorem dget?_eq_none_of_dmem_false {α : Type} {d : List (String × α)} {k : String}
    (h : dmem d k = false) : dget? d k = none := by
  unfold dmem at h
  cases hd : dget? d k with
  | none => rfl
  | some v => rw [hd] at h; simp at h

theorem dget?_isSome_of_dmem {α : Type} {d : List (String × α)} {k : String}
    (h : dmem d k = true) : ∃ v, dget? d k = some v := by
  unfold dmem at h
  cases hd : dget? d k with
  | none => rw [hd] at h; simp at h
  | some v => exact ⟨v, rfl⟩

theorem dget?_map_replace {α : Type} (d : List (String × α)) (k : String) (v : α) :
    dget? (d.map (fun p => if p.1 == k then (k, v) else p)) k =
      if dmem d k then some v else none := by
  induction d with
  | nil => simp [dget?, dmem]
  | cons p rest ih =>
    by_cases hp : p.1 = k
    · simp [dget?, dmem, hp]
    · have hbeq : (p.1 == k) = false := by simp [hp]
      rw [List.map_cons, if_neg (by simp [hp] : ¬((p.1 == k) = true)),
        dget?_cons_ne hbeq, ih, dmem_cons_ne hbeq]

theorem dget?_map_replace_ne {α : Type} (d : List (String × α)) (k k' : String) (v : α)
    (h : k ≠ k') :
    dget? (d.map (fun p => if p.1 == k' then (k', v) else p)) k = dget? d k := by
  induction d with
  | nil => simp [dget?]
  | cons p rest ih =>
    by_cases hp : p.1 = k'
    · rw [List.map_cons, if_pos (by simp [hp] : (p.1 == k') = true),
        dget?_cons_ne (beq_false_of_ne (Ne.symm h) : ((k', v).1 == k) = false),
        dget?_cons_ne (beq_false_of_ne (by rw [hp]; exact Ne.symm h) : ((p.1 == k) = false)), ih]
    · rw [List.map_cons, if_neg (by simp [hp] : ¬((p.1 == k') = true))]
      by_cases hk : p.1 = k
      · rw [dget?_cons_eq (by simp [hk]), dget?_cons_eq (by simp [hk])]
      · rw [dget?_cons_ne (by simp [hk]), dget?_cons_ne (by simp [hk]), ih]

theorem dget?_append {α : Type} (d e : List (String × α)) (k : String) :
    dget? (d ++ e) k = (dget? d k).or (dget? e k) := by
  induction d with
  | nil => simp [dget?, option_none_or]
  | cons p rest ih =>
    by_cases hp : p.1 = k
    · rw [List.cons_append, dget?_cons_eq (by simp [hp]), dget?_cons_eq (by simp [hp]),
        option_some_or]
    · rw [List.cons_append, dget?_cons_ne (by simp [hp]), dget?_cons_ne (by simp [hp]), ih]

theorem dget?_dset_self {α : Type} (d : List (String × α)) (k : String) (v : α) :
    dget? (dset d k v) k = some v := by
  unfold dset
  by_cases h : dmem d k
  · rw [if_pos h, dget?_map_replace, if_pos h]
  · rw [if_neg h, dget?_append, dget?_eq_none_of_dmem_false (by simpa using h),
      option_none_or, dget?_cons_eq (by simp)]

theorem dget?_dset_ne {α : Type} (d : List (String × α)) (k k' : String) (v : α)
    (h : k ≠ k') : dget? (dset d k' v) k = dget? d k := by
  unfold dset
  by_cases hm : dmem d k'
  · rw [if_pos hm, dget?_map_replace_ne _ _ _ _ h]
  · rw [if_neg hm, dget?_append,
      dget?_cons_ne (beq_false_of_ne (Ne.symm h) : ((k', v).1 == k) = false)]
    cases dget? d k <;> rfl

theorem dget?_dupdate_not_mem {α : Type} (other d : List (String × α)) (k : String)
    (h : dmem other k = false) : dget? (dupdate d other) k = dget? d k := by
  induction other generalizing d with
  | nil => rfl
  | cons p rest ih =>
    have hne : (p.1 == k) = false := by
      cases hb : (p.1 == k)
      · rfl
      · exfalso
        rw [dmem, dget?_cons_eq hb] at h
        simp at h
    have hrest : dmem rest k = false := by rwa [dmem_cons_ne hne] at h
    have hkne : k ≠ p.1 := by
      intro he
      rw [he] at hne
      simp at hne
    unfold dupdate at *
    rw [List.foldl_cons, ih _ hrest, dget?_dset_ne _ _ _ _ hkne]

/-! ### Conditional-feature application: full lookup characterisation -/

theorem dget?_cond_foldl (l : List (String × List (String × Value)))
    (t : List (String × Value)) (environment k : String) :
    dget? (l.foldl (fun acc feature =>
        if dmem acc feature.1 then acc
        else dset acc feature.1 (dgetD feature.2 environment (.bool false))) t) k =
      (dget? t k).or ((dget? l k).map (fun ev => dgetD ev environment (.bool false))) := by
  induction l generalizing t with
  | nil =>
    rw [List.foldl_nil, show dget? ([] : List (String × List (String × Value))) k = none from rfl]
    cases dget? t k <;> rfl
  | cons f rest ih =>
    rw [List.foldl_cons, ih]
    by_cases hf : f.1 = k
    · by_cases hm : dmem t f.1
      · obtain ⟨v, hv⟩ := dget?_isSome_of_dmem (d := t) (k := k) (by rwa [hf] at hm)
        rw [if_pos hm, hv, option_some_or, dget?_cons_eq (by simp [hf]), option_some_or]
      · rw [if_neg hm, hf]
        have ht : dget? t k = none := dget?_eq_none_of_dmem_false (by
          rw [hf] at hm
          simpa using hm)
        rw [dget?_dset_self, ht, option_some_or, option_none_or,
          dget?_cons_eq (by simp [hf])]
        rfl
    · have hkne : k ≠ f.1 := fun h' => hf (Eq.symm h')
      have hstep : dget? (if dmem t f.1 then t
          else dset t f.1 (dgetD f.2 environment (.bool false))) k = dget? t k := by
        by_cases hm : dmem t f.1
        · rw [if_pos hm]
        · rw [if_neg hm, dget?_dset_ne _ _ _ _ hkne]
      rw [hstep, dget?_cons_ne (by simp [hf])]

theorem dget?_apply_conditionals (sd : SizingDefaults) (tfvars : List (String × Value))
    (environment k : String) :
    dget? (apply_conditionals sd tfvars environment) k =
      (dget? tfvars k).or
        ((dget? sd.conditional_features k).map (fun ev => dgetD ev environment (.bool false))) :=
  dget?_cond_foldl sd.conditional_features tfvars environment k

/-! ### Generic lemmas about key-indexed folds (optional-config layering) -/

theorem dget?_foldl_frame {α β : Type} (step : List (String × α) → (String × β) → List (String × α))
    (hframe : ∀ acc kv k, kv.1 ≠ k → dget? (step acc kv) k = dget? acc k)
    (l : List (String × β)) (t : List (String × α)) (K : String)
    (hK : K ∉ l.map Prod.fst) :
    dget? (l.foldl step t) K = dget? t K := by
  induction l generalizing t with
  | nil => rfl
  | cons kv rest ih =>
    rw [List.map_cons] at hK
    have h1 : kv.1 ≠ K := fun he => hK (by rw [he]; exact List.mem_cons_self _ _)
    have h2 : K ∉ rest.map Prod.fst := fun hm => hK (List.mem_cons_of_mem _ hm)
    rw [List.foldl_cons, ih _ h2, hframe _ _ _ h1]

theorem dget?_foldl_write {α β : Type} (step : List (String × α) → (String × β) → List (String × α))
    (K : String) (v : α)
    (hframe : ∀ acc kv k, kv.1 ≠ k → dget? (step acc kv) k = dget? acc k)
    (hwrite : ∀ acc kv, kv.1 = K → dget? (step acc kv) K = some v)
    (l : List (String × β)) (t : List (String × α))
    (hK : K ∈ l.map Prod.fst) :
    dget? (l.foldl step t) K = some v := by
  induction l generalizing t with
  | nil => exact absurd hK (by simp)
  | cons kv rest ih =>
    rw [List.foldl_cons]
    by_cases hr : K ∈ rest.map Prod.fst
    · exact ih _ hr
    · have hkv : kv.1 = K := by
        rw [List.map_cons] at hK
        rcases List.mem_cons.mp hK with h | h
        · exact h.symm
        · exact absurd h hr
      rw [dget?_foldl_frame step hframe rest _ K hr, hwrite _ _ hkv]

/-! ### Execution order: loop characterisation -/

theorem exec_order_foldl (l : List DocResult) (d c : List Nat) :
    l.foldl (fun (acc : List Nat × List Nat) result =>
      if !result.valid then acc
      else if result.action == "destroy" then (acc.1 ++ [result.index], acc.2)
      else (acc.1, acc.2 ++ [result.index])) (d, c) =
    (d ++ (l.filter (fun r => r.valid && r.action == "destroy")).map DocResult.index,
     c ++ (l.filter (fun r => r.valid && !(r.action == "destroy"))).map DocResult.index) := by
  induction l generalizing d c with
  | nil => simp
  | cons r rest ih =>
    rw [List.foldl_cons]
    cases hv : r.valid
    · refine (ih d c).trans ?_
      rw [List.filter_cons, List.filter_cons]
      simp [hv]
    · cases hd : r.action == "destroy"
      · refine (ih d (c ++ [r.index])).trans ?_
        rw [List.filter_cons, List.filter_cons]
        simp [hv, hd]
      · refine (ih (d ++ [r.index]) c).trans ?_
        rw [List.filter_cons, List.filter_cons]
        simp [hv, hd]

/-! ### Claim C1: execution order -/

/-- C1. For every list of per-document results in which every valid entry
carries action `create` or `destroy` (an invariant of `resolve_all`
output, whose validator rejects any other action), `compute_execution_order`
returns exactly the indices of the valid `destroy` entries in their
original relative order, followed by the indices of the valid `create`
entries in their original relative order; invalid entries appear nowhere. -/
theorem c1_execution_order (results : List DocResult)
    (h : ∀ r ∈ results, r.valid = true → r.action = "create" ∨ r.action = "destroy") :
    Scripts.compute_execution_order results =
      (results.filter (fun r => r.valid && r.action == "destroy")).map DocResult.index ++
      (results.filter (fun r => r.valid && r.action == "create")).map DocResult.index := by
  unfold Scripts.compute_execution_order
  rw [exec_order_foldl]
  have hfc : results.filter (fun r => r.valid && !(r.action == "destroy")) =
      results.filter (fun r => r.valid && r.action == "create") := by
    apply List.filter_congr
    intro r hr
    cases hv : r.valid
    · simp
    · rcases h r hr hv with hc | hd
      · simp [hc]
      · simp [hd]
  rw [hfc]
  simp

/-- Witness for C1: the execution-order law of the specification, at the
concrete result list `[create valid, destroy valid, create valid,
destroy invalid]`, yields `[1, 0, 2]`. -/
theorem c1_execution_order_witness :
    (∀ r ∈ c1results, r.valid = true → r.action = "create" ∨ r.action = "destroy") ∧
      Scripts.compute_execution_order c1results = [1, 0, 2] :=
  ⟨by decide, (c1_execution_order c1results (by decide)).trans (by decide)⟩

/-! ### Claim C3: conditional features never override present keys -/

/-- C3. Applying conditional features never changes the value of a key
already present in the tfvars map, and the only keys added are features
from `conditional_features` that were absent, each set to the value of the feature for the environment, or `false` when the environment key is
missing: the lookup after the step is the lookup before, or-else the defaulted value from the feature table. -/
theorem c3_conditionals_frame (sd : SizingDefaults) (tfvars : List (String × Value))
    (environment k : String) :
    dget? (apply_conditionals sd tfvars environment) k =
      (dget? tfvars k).or
        ((dget? sd.conditional_features k).map (fun ev => dgetD ev environment (.bool false))) :=
  dget?_apply_conditionals sd tfvars environment k

/-! ### Claim C8: the two implementations agree up to the version warning -/

/-- C8 (amended). The script and dry-run resolvers agree on the valid
flag, on the error list, and on the resolved tfvars for every request and
identical catalog and sizing data; their warnings differ: the script
never warns, while the dry-run implementation warns exactly when
`pattern_version` is absent. -/
theorem c8_implementations_agree (patterns : List (String × Pattern)) (sd : SizingDefaults)
    (r : Request) :
    (Scripts.validate_request patterns r).valid = (DryRun.validate_request patterns r).valid ∧
    (Scripts.validate_request patterns r).errors = (DryRun.validate_request patterns r).errors ∧
    Scripts.resolve patterns sd r = DryRun.resolve patterns sd r ∧
    (Scripts.validate_request patterns r).warnings = [] ∧
    (DryRun.validate_request patterns r).warnings =
      (if r.pattern_version.isNone then
        ["pattern_version not specified; will use latest version"]
      else []) :=
  ⟨rfl, rfl, rfl, rfl, rfl⟩

/-- Counterexample to C8 as stated: on a request without
`pattern_version` the two `validate_request` implementations return
different results (the warnings differ). -/
theorem c8_counterexample :
    Scripts.validate_request catalog0 reqSecrets ≠ DryRun.validate_request catalog0 reqSecrets := by
  decide

/-! ### Claim C4: the missing pattern_version warning -/

/-- C4 (amended). For every request that omits `pattern_version`, the
dry-run `validate_request` reports exactly the advisory warning and the
script `validate_request` reports no warning at all; in both
implementations the presence or absence of `pattern_version` never
changes the errors or the valid flag. -/
theorem c4_pattern_version_warning (patterns : List (String × Pattern)) (r : Request)
    (h : r.pattern_version = none) :
    (DryRun.validate_request patterns r).warnings =
      ["pattern_version not specified; will use latest version"] ∧
    (Scripts.validate_request patterns r).warnings = [] ∧
    (∀ v : Option String,
      (DryRun.validate_request patterns { r with pattern_version := v }).errors =
        (DryRun.validate_request patterns r).errors ∧
      (DryRun.validate_request patterns { r with pattern_version := v }).valid =
        (DryRun.validate_request patterns r).valid ∧
      (Scripts.validate_request patterns { r with pattern_version := v }).errors =
        (Scripts.validate_request patterns r).errors) := by
  refine ⟨?_, rfl, fun v => ⟨rfl, rfl, rfl⟩⟩
  show (if r.pattern_version.isNone then
      ["pattern_version not specified; will use latest version"] else ([] : List String)) = _
  rw [h]
  simp

/-- Witness for C4: at a concrete request without `pattern_version`, the
dry-run validator warns and the script validator does not. -/
theorem c4_pattern_version_warning_witness :
    (DryRun.validate_request catalog0 reqSecrets).warnings =
      ["pattern_version not specified; will use latest version"] ∧
    (Scripts.validate_request catalog0 reqSecrets).warnings = [] :=
  ⟨(c4_pattern_version_warning catalog0 reqSecrets rfl).1,
   (c4_pattern_version_warning catalog0 reqSecrets rfl).2.1⟩

/-- Counterexample to C4 as stated: the script implementation cited by the
claim returns an empty warning list on a request omitting
`pattern_version`, so no warning about it is included there. -/
theorem c4_counterexample :
    reqSecrets.pattern_version = none ∧
    (Scripts.validate_request catalog0 reqSecrets).warnings = [] :=
  ⟨rfl, rfl⟩

/-! ### Claim C5: cost estimate on a missing (size, environment) entry -/

/-- C5 (amended). For every request whose pattern is in the catalog, when
`pattern.estimated_costs` has no entry for the computed (size,
environment) pair — size being `config.size` when present, else the
environment default, else `small` — the dry-run implementation returns a
null `estimated_monthly_cost_usd` (not zero, not an error, and no
exception is raised), while the script implementation instead returns the
error value `Cost estimate not available`. -/
theorem c5_cost_null_on_missing_entry (patterns : List (String × Pattern)) (sd : SizingDefaults)
    (r : Request) (pname : String) (pat : Pattern)
    (h1 : r.pattern = some pname) (h2 : dget? patterns pname = some pat)
    (hmiss : (match vget? pat.estimated_costs
        (dgetD r.config "size"
          (.str (get_default_size sd ((r.metadata.bind (fun m => m.environment)).getD "dev")))) with
      | some env_map => dget? env_map ((r.metadata.bind (fun m => m.environment)).getD "dev")
      | none => none) = none) :
    DryRun.get_cost_estimate patterns sd r = [("estimated_monthly_cost_usd", .null)] ∧
    Scripts.get_cost_estimate patterns sd r = [("error", .str "Cost estimate not available")] := by
  constructor
  · simp only [DryRun.get_cost_estimate, h1, Option.getD_some, h2]
    cases hv : vget? pat.estimated_costs
        (dgetD r.config "size"
          (.str (get_default_size sd ((r.metadata.bind (fun m => m.environment)).getD "dev")))) with
    | none => rfl
    | some env_map =>
      rw [hv] at hmiss
      have hmiss2 : dget? env_map ((r.metadata.bind (fun m => m.environment)).getD "dev") =
          none := hmiss
      simp only [hmiss2]
  · simp only [Scripts.get_cost_estimate, h1, Option.getD_some, h2]
    cases hv : vget? pat.estimated_costs
        (dgetD r.config "size"
          (.str (get_default_size sd ((r.metadata.bind (fun m => m.environment)).getD "dev")))) with
    | none => rfl
    | some env_map =>
      rw [hv] at hmiss
      have hmiss2 : dget? env_map ((r.metadata.bind (fun m => m.environment)).getD "dev") =
          none := hmiss
      simp only [hmiss2]

/-- Witness for C5: a staging request for a pattern whose cost table only
covers (small, dev) yields a null cost from the dry-run implementation
and the error value from the script. -/
theorem c5_cost_null_witness :
    DryRun.get_cost_estimate catalog0 sd0 reqStaging = [("estimated_monthly_cost_usd", .null)] ∧
    Scripts.get_cost_estimate catalog0 sd0 reqStaging =
      [("error", .str "Cost estimate not available")] :=
  c5_cost_null_on_missing_entry catalog0 sd0 reqStaging "keyvault" kvPattern rfl rfl rfl

/-- Counterexample to C5 as stated: the script implementation cited by the
claim returns an error value, not a null cost, when the cost entry is
absent. -/
theorem c5_counterexample :
    Scripts.get_cost_estimate catalog0 sd0 reqStaging =
      [("error", .str "Cost estimate not available")] ∧
    dget? (Scripts.get_cost_estimate catalog0 sd0 reqStaging) "estimated_monthly_cost_usd" =
      none :=
  ⟨rfl, rfl⟩

/-! ### String prefix lemmas for distinguishing error messages -/

theorem str_ne_of_data_not_prefixed (p s : String) (h : ¬ p.data <+: s.data) (x : String) :
    p ++ x ≠ s := by
  intro he
  exact h ⟨x.data, by rw [← String.data_append, he]⟩

theorem str_append_append_ne (p q : String)
    (hp : ¬ p.data <+: q.data) (hq : ¬ q.data <+: p.data) (x y : String) :
    p ++ x ≠ q ++ y := by
  intro he
  have hd : p.data ++ x.data = q.data ++ y.data := by
    rw [← String.data_append, ← String.data_append, he]
  rcases List.append_eq_append_iff.mp hd with ⟨t, ht, _⟩ | ⟨t, ht, _⟩
  · exact hp ⟨t, ht.symm⟩
  · exact hq ⟨t, ht.symm⟩

theorem missingConfigMsg_inj {a b : String} (h : missingConfigMsg a = missingConfigMsg b) :
    a = b := by
  unfold missingConfigMsg at h
  apply String.ext
  have hd := congrArg String.data h
  rw [String.data_append, String.data_append] at hd
  exact List.append_cancel_left hd

theorem missingConfigMsg_ne_invalidActionMsg (f a : String) :
    missingConfigMsg f ≠ invalidActionMsg a := by
  unfold missingConfigMsg invalidActionMsg
  rw [String.append_assoc]
  exact str_append_append_ne _ _ (by decide) (by decide) _ _

theorem missingConfigMsg_ne_invalidEnvMsg (f e : String) :
    missingConfigMsg f ≠ invalidEnvMsg e := by
  unfold missingConfigMsg invalidEnvMsg
  rw [String.append_assoc]
  exact str_append_append_ne _ _ (by decide) (by decide) _ _

theorem missingConfigMsg_ne_metadata_field (f g : String) :
    missingConfigMsg f ≠ "Missing required metadata field: " ++ g :=
  str_append_append_ne _ _ (by decide) (by decide) _ _

theorem missingConfigMsg_ne_missing_pattern (f : String) :
    missingConfigMsg f ≠ "Missing required field: pattern" :=
  str_ne_of_data_not_prefixed _ _ (by decide) _

theorem missingConfigMsg_ne_missing_metadata (f : String) :
    missingConfigMsg f ≠ "Missing required field: metadata" :=
  str_ne_of_data_not_prefixed _ _ (by decide) _

/-! ### Membership of missing-config messages in each validation group -/

theorem mem_if_singleton {c : Prop} [Decidable c] {a x : String}
    (h : a ∈ (if c then [x] else [])) : a = x := by
  split at h
  · simpa using h
  · simp at h

theorem mem_if_nil_singleton {c : Prop} [Decidable c] {a x : String}
    (h : a ∈ (if c then [] else [x])) : a = x := by
  split at h
  · simp at h
  · simpa using h

theorem missingConfigMsg_not_mem_action_errors (f : String) (r : Request) :
    missingConfigMsg f ∉ action_errors r := by
  intro hmem
  have h' : missingConfigMsg f ∈
      (if (r.action.getD "create" == "create" || r.action.getD "create" == "destroy") = true
       then [] else [invalidActionMsg (r.action.getD "create")]) := hmem
  exact missingConfigMsg_ne_invalidActionMsg _ _ (mem_if_nil_singleton h')

theorem missingConfigMsg_not_mem_pattern_field_errors (f : String) (r : Request) :
    missingConfigMsg f ∉ pattern_field_errors r := by
  intro hmem
  unfold pattern_field_errors at hmem
  split at hmem
  · simp only [List.mem_singleton] at hmem
    exact missingConfigMsg_ne_missing_pattern _ hmem
  · simp at hmem

theorem missingConfigMsg_not_mem_metadata_errors (f : String) (r : Request) :
    missingConfigMsg f ∉ metadata_errors r := by
  intro hmem
  unfold metadata_errors at hmem
  cases hm : r.metadata with
  | none =>
    rw [hm] at hmem
    simp only [List.mem_singleton] at hmem
    exact missingConfigMsg_ne_missing_metadata _ hmem
  | some meta =>
    rw [hm] at hmem
    simp only [List.mem_append] at hmem
    rcases hmem with ((((h | h) | h) | h) | h)
    · exact missingConfigMsg_ne_metadata_field f "project" (mem_if_singleton h)
    · exact missingConfigMsg_ne_metadata_field f "environment" (mem_if_singleton h)
    · exact missingConfigMsg_ne_metadata_field f "business_unit" (mem_if_singleton h)
    · exact missingConfigMsg_ne_metadata_field f "owners" (mem_if_singleton h)
    · have h' : missingConfigMsg f ∈
          (if (meta.environment.getD "" == "dev" || meta.environment.getD "" == "staging" ||
              meta.environment.getD "" == "prod") = true
           then [] else [invalidEnvMsg (meta.environment.getD "")]) := h
      exact missingConfigMsg_ne_invalidEnvMsg _ _ (mem_if_nil_singleton h')

theorem mem_config_errors_iff (patterns : List (String × Pattern)) (r : Request)
    (pname : String) (pat : Pattern) (f : String)
    (h1 : r.pattern = some pname) (h2 : dget? patterns pname = some pat) :
    missingConfigMsg f ∈ config_errors patterns r ↔
      (f ∈ pat.required ∧ dmem r.config f = false) := by
  unfold config_errors
  rw [h1, Option.getD_some, h2]
  simp only [List.mem_map, List.mem_filter]
  constructor
  · rintro ⟨g, ⟨hg, hgc⟩, heq⟩
    have : g = f := missingConfigMsg_inj heq
    subst this
    exact ⟨hg, by simpa using hgc⟩
  · rintro ⟨hf, hfc⟩
    exact ⟨f, ⟨hf, by simp [hfc]⟩, rfl⟩

/-! ### Claim C2: required config fields -/

/-- C2 (amended). For every request whose pattern names a catalog entry,
`validate_request` reports a missing-required-config-field error for
exactly those fields of `pattern.config.required` that are absent from
`request.config` — including the field `name` itself: the absence of
`name` produces an error whenever `name` is listed as required. -/
theorem c2_required_config_error_iff (patterns : List (String × Pattern)) (r : Request)
    (pname : String) (pat : Pattern) (f : String)
    (h1 : r.pattern = some pname) (h2 : dget? patterns pname = some pat) :
    missingConfigMsg f ∈ (Scripts.validate_request patterns r).errors ↔
      (f ∈ pat.required ∧ dmem r.config f = false) := by
  have hdm : dmem patterns pname = true := by
    unfold dmem
    rw [h2]
    rfl
  have hu : unknown_pattern_errors patterns r = [] := by
    unfold unknown_pattern_errors
    rw [h1, Option.getD_some]
    simp [hdm]
  rw [show (Scripts.validate_request patterns r).errors = validation_errors patterns r from rfl]
  unfold validation_errors
  rw [hu]
  simp only [List.append_nil, List.mem_append]
  constructor
  · rintro (((h | h) | h) | h)
    · exact absurd h (missingConfigMsg_not_mem_action_errors f r)
    · exact absurd h (missingConfigMsg_not_mem_pattern_field_errors f r)
    · exact absurd h (missingConfigMsg_not_mem_metadata_errors f r)
    · exact (mem_config_errors_iff patterns r pname pat f h1 h2).mp h
  · intro hrc
    exact Or.inr ((mem_config_errors_iff patterns r pname pat f h1 h2).mpr hrc)

/-- Counterexample to C2 as stated: a request for a pattern that lists
`name` as required and whose config omits `name` receives the
missing-required-config-field error for `name` and is invalid, so the
absence of `name` alone does produce a validation error. -/
theorem c2_counterexample :
    missingConfigMsg "name" ∈ (Scripts.validate_request catalog0 reqMissingName).errors ∧
    (Scripts.validate_request catalog0 reqMissingName).valid = false := by
  decide

/-- Witness for C2: the amended rule applied at the concrete request
whose config omits the required `name` field. -/
theorem c2_required_config_error_witness :
    missingConfigMsg "name" ∈ (Scripts.validate_request catalog0 reqMissingName).errors :=
  (c2_required_config_error_iff catalog0 reqMissingName "keyvault" kvPattern "name" rfl rfl).mpr
    (by decide)

/-! ### Shape of a document accepted by the validator -/

theorem scripts_valid_iff (patterns : List (String × Pattern)) (r : Request) :
    (Scripts.validate_request patterns r).valid = true ↔
      validation_errors patterns r = [] := by
  show (validation_errors patterns r).isEmpty = true ↔ _
  exact List.isEmpty_iff

theorem validation_errors_nil_parts {patterns : List (String × Pattern)} {r : Request}
    (h : validation_errors patterns r = []) :
    action_errors r = [] ∧ pattern_field_errors r = [] ∧ metadata_errors r = [] ∧
    unknown_pattern_errors patterns r = [] ∧ config_errors patterns r = [] := by
  unfold validation_errors at h
  simp only [List.append_eq_nil] at h
  exact ⟨h.1.1.1.1, h.1.1.1.2, h.1.1.2, h.1.2, h.2⟩

theorem cond_false_of_if_singleton_nil {c : Bool} {x : String}
    (h : (if c = true then [x] else []) = []) : c = false := by
  cases hc : c
  · rfl
  · rw [hc] at h
    simp at h

theorem pattern_present_of_no_error {r : Request} (h : pattern_field_errors r = []) :
    ∃ pname, r.pattern = some pname := by
  unfold pattern_field_errors at h
  cases hp : r.pattern with
  | none => rw [hp] at h; simp at h
  | some pname => exact ⟨pname, rfl⟩

theorem metadata_present_of_no_error {r : Request} (h : metadata_errors r = []) :
    ∃ m, r.metadata = some m ∧ (∃ a, m.project = some a) ∧ (∃ e, m.environment = some e) ∧
      (∃ b, m.business_unit = some b) ∧ (∃ w, m.owners = some w) := by
  unfold metadata_errors at h
  cases hm : r.metadata with
  | none => rw [hm] at h; simp at h
  | some m =>
    rw [hm] at h
    simp only [List.append_eq_nil] at h
    obtain ⟨⟨⟨⟨h1, h2⟩, h3⟩, h4⟩, _⟩ := h
    have p1 := cond_false_of_if_singleton_nil h1
    have p2 := cond_false_of_if_singleton_nil h2
    have p3 := cond_false_of_if_singleton_nil h3
    have p4 := cond_false_of_if_singleton_nil h4
    refine ⟨m, rfl, ?_, ?_, ?_, ?_⟩
    · cases hv : m.project with
      | none => rw [hv] at p1; simp at p1
      | some a => exact ⟨a, rfl⟩
    · cases hv : m.environment with
      | none => rw [hv] at p2; simp at p2
      | some e => exact ⟨e, rfl⟩
    · cases hv : m.business_unit with
      | none => rw [hv] at p3; simp at p3
      | some b => exact ⟨b, rfl⟩
    · cases hv : m.owners with
      | none => rw [hv] at p4; simp at p4
      | some w => exact ⟨w, rfl⟩

theorem known_of_no_unknown_error {patterns : List (String × Pattern)} {r : Request}
    {pname : String} (hp : r.pattern = some pname) (hne : pname ≠ "")
    (h : unknown_pattern_errors patterns r = []) : dmem patterns pname = true := by
  simp only [unknown_pattern_errors, hp, Option.getD_some] at h
  cases hd : dmem patterns pname
  · rw [hd] at h
    have hb : (pname != "") = true := bne_iff_ne.mpr hne
    rw [hb] at h
    simp at h
  · rfl

/-- The value `resolve` returns on a document that passes validation and
whose pattern and metadata lookups all succeed. -/
theorem scripts_resolve_ok_eq (patterns : List (String × Pattern)) (sd : SizingDefaults)
    (r : Request) (pname : String) (pat : Pattern) (m : Metadata) (env proj bu : String)
    (owners : Value)
    (hval : (Scripts.validate_request patterns r).valid = true)
    (hp : r.pattern = some pname) (hpat : dget? patterns pname = some pat)
    (hm : r.metadata = some m) (henv : m.environment = some env) (hproj : m.project = some proj)
    (hbu : m.business_unit = some bu) (how : m.owners = some owners) :
    Scripts.resolve patterns sd r = .ok (apply_conditionals sd
      ((optional_to_dict pat.optional).foldl
        (fun acc kv =>
          if dmem r.config kv.1 then dset acc kv.1 (dgetD r.config kv.1 .null)
          else
            match kv.2 with
            | .dict spec =>
              if dmem spec "default" then dset acc kv.1 (dgetD spec "default" .null)
              else acc
            | _ => acc)
        (dupdate
          [("project", .str proj), ("environment", .str env), ("business_unit", .str bu),
           ("owners", owners), ("location", .str (m.location.getD "eastus")),
           ("pattern_name", .str pname), ("name", dgetD r.config "name" (.str proj))]
          (resolve_sizing sd pat (dgetD r.config "size" (.str (get_default_size sd env))) env)))
      env) := by
  simp only [Scripts.resolve, hval, Bool.not_true, Bool.false_eq_true, if_false, hp, hpat, hm,
    henv, hproj, hbu, how]

/-! ### Claim C6: the validation gate of `resolve` -/

/-- C6 (amended). `resolve` raises a `ValueError` carrying the
full validator error list exactly when `validate_request` reports the
document invalid, and performs no resolution in that case; on a valid
document whose pattern name is non-empty (hence present in the catalog)
it returns a tfvars map without raising; however, a valid document whose
pattern is the empty string makes `resolve` raise a `KeyError` rather
than return, because the unknown-pattern check skips falsy names. -/
theorem c6_validation_gate (patterns : List (String × Pattern)) (sd : SizingDefaults)
    (r : Request) :
    ((Scripts.validate_request patterns r).valid = false →
      Scripts.resolve patterns sd r = .error (.valueError
        ("Invalid request: " ++ pyReprStrList (Scripts.validate_request patterns r).errors))) ∧
    ((Scripts.validate_request patterns r).valid = true → ∀ pname, r.pattern = some pname →
      pname ≠ "" → ∃ tfv, Scripts.resolve patterns sd r = .ok tfv) ∧
    ((Scripts.validate_request patterns r).valid = true →
      ∀ msg, Scripts.resolve patterns sd r ≠ .error (.valueError msg)) := by
  refine ⟨?_, ?_, ?_⟩
  · intro hval
    simp only [Scripts.resolve, hval, Bool.not_false, if_true]
  · intro hval pname hp hne
    have hparts := validation_errors_nil_parts ((scripts_valid_iff patterns r).mp hval)
    obtain ⟨m, hm, ⟨proj, hproj⟩, ⟨env, henv⟩, ⟨bu, hbu⟩, ⟨owners, how⟩⟩ :=
      metadata_present_of_no_error hparts.2.2.1
    have hdm := known_of_no_unknown_error hp hne hparts.2.2.2.1
    obtain ⟨pat, hpat⟩ := dget?_isSome_of_dmem hdm
    exact ⟨_, scripts_resolve_ok_eq patterns sd r pname pat m env proj bu owners hval hp hpat
      hm henv hproj hbu how⟩
  · intro hval msg h
    simp only [Scripts.resolve, hval, Bool.not_true, Bool.false_eq_true, if_false] at h
    repeat' split at h
    all_goals simp at h

/-- Counterexample to C6 as stated: the empty-pattern document is valid
according to `validate_request`, yet `resolve` raises a `KeyError`
instead of returning a tfvars map. -/
theorem c6_counterexample :
    (Scripts.validate_request catalog0 reqEmptyPattern).valid = true ∧
    Scripts.resolve catalog0 sd0 reqEmptyPattern = .error (.keyError "") :=
  ⟨by decide, rfl⟩

/-- Witness for C6: a valid request resolves to a tfvars map, and an
invalid one raises the `ValueError` carrying the validator errors. -/
theorem c6_validation_gate_witness :
    (∃ tfv, Scripts.resolve catalog0 sd0 reqSecrets = .ok tfv) ∧
    Scripts.resolve catalog0 sd0 reqInvalid = .error (.valueError
      ("Invalid request: " ++ pyReprStrList (Scripts.validate_request catalog0 reqInvalid).errors)) :=
  ⟨(c6_validation_gate catalog0 sd0 reqSecrets).2.1 (by decide) "keyvault" rfl (by decide),
   (c6_validation_gate catalog0 sd0 reqInvalid).1 (by decide)⟩

/-! ### Claim C9: explicit overrides beat sizing values -/

theorem scripts_resolve_invalid (patterns : List (String × Pattern)) (sd : SizingDefaults)
    (r : Request) (hval : (Scripts.validate_request patterns r).valid = false) :
    Scripts.resolve patterns sd r = .error (.valueError
      ("Invalid request: " ++ pyReprStrList (Scripts.validate_request patterns r).errors)) := by
  simp only [Scripts.resolve, hval, Bool.not_false, if_true]

theorem scripts_resolve_ok_valid {patterns : List (String × Pattern)} {sd : SizingDefaults}
    {r : Request} {tfv : List (String × Value)}
    (h3 : Scripts.resolve patterns sd r = .ok tfv) :
    (Scripts.validate_request patterns r).valid = true := by
  cases hv : (Scripts.validate_request patterns r).valid
  · rw [scripts_resolve_invalid patterns sd r hv] at h3
    simp at h3
  · rfl

theorem opt_step_frame (config : List (String × Value)) (acc : List (String × Value))
    (kv : String × Value) (k : String) (hk : kv.1 ≠ k) :
    dget? (if dmem config kv.1 then dset acc kv.1 (dgetD config kv.1 .null)
      else
        match kv.2 with
        | .dict spec =>
          if dmem spec "default" then dset acc kv.1 (dgetD spec "default" .null)
          else acc
        | _ => acc) k = dget? acc k := by
  by_cases hc : dmem config kv.1
  · rw [if_pos hc, dget?_dset_ne _ _ _ _ (Ne.symm hk)]
  · rw [if_neg hc]
    rcases kv with ⟨kk, vv⟩
    dsimp only at hk ⊢
    cases vv with
    | dict spec =>
      show dget? (if dmem spec "default" then dset acc kk (dgetD spec "default" .null)
        else acc) k = dget? acc k
      by_cases hd : dmem spec "default"
      · rw [if_pos hd, dget?_dset_ne _ _ _ _ (Ne.symm hk)]
      · rw [if_neg hd]
    | str s => rfl
    | int n => rfl
    | bool b => rfl
    | null => rfl
    | list l => rfl

/-- C9. For every valid document whose pattern is in the catalog, if a
field K is declared in the optional config of the pattern and the request
config supplies K, then the resolved output maps K to the value given by
the request — the sizing-layer value for K, when any, is overwritten. -/
theorem c9_override_precedence (patterns : List (String × Pattern)) (sd : SizingDefaults)
    (r : Request) (tfv : List (String × Value)) (pname : String) (pat : Pattern) (K : String)
    (h1 : r.pattern = some pname) (h2 : dget? patterns pname = some pat)
    (h3 : Scripts.resolve patterns sd r = .ok tfv)
    (h4 : K ∈ (optional_to_dict pat.optional).map Prod.fst)
    (h5 : dmem r.config K = true) :
    dget? tfv K = dget? r.config K := by
  have hval := scripts_resolve_ok_valid h3
  have hparts := validation_errors_nil_parts ((scripts_valid_iff patterns r).mp hval)
  obtain ⟨m, hm, ⟨proj, hproj⟩, ⟨env, henv⟩, ⟨bu, hbu⟩, ⟨owners, how⟩⟩ :=
    metadata_present_of_no_error hparts.2.2.1
  have heq := scripts_resolve_ok_eq patterns sd r pname pat m env proj bu owners hval h1 h2
    hm henv hproj hbu how
  rw [heq] at h3
  injection h3 with htfv
  subst htfv
  obtain ⟨v, hv⟩ := dget?_isSome_of_dmem h5
  rw [dget?_apply_conditionals]
  have hfold : dget? ((optional_to_dict pat.optional).foldl
      (fun acc kv =>
        if dmem r.config kv.1 then dset acc kv.1 (dgetD r.config kv.1 .null)
        else
          match kv.2 with
          | .dict spec =>
            if dmem spec "default" then dset acc kv.1 (dgetD spec "default" .null)
            else acc
          | _ => acc)
      (dupdate
        [("project", .str proj), ("environment", .str env), ("business_unit", .str bu),
         ("owners", owners), ("location", .str (m.location.getD "eastus")),
         ("pattern_name", .str pname), ("name", dgetD r.config "name" (.str proj))]
        (resolve_sizing sd pat (dgetD r.config "size" (.str (get_default_size sd env))) env)))
      K = some v := by
    apply dget?_foldl_write _ K v
    · intro acc kv k hk
      exact opt_step_frame r.config acc kv k hk
    · intro acc kv hkv
      show dget? (if dmem r.config kv.1 then dset acc kv.1 (dgetD r.config kv.1 .null)
        else
          match kv.2 with
          | .dict spec =>
            if dmem spec "default" then dset acc kv.1 (dgetD spec "default" .null)
            else acc
          | _ => acc) K = some v
      rw [hkv, if_pos h5, dget?_dset_self]
      unfold dgetD
      rw [hv]
      rfl
    · exact h4
  rw [hfold, option_some_or, hv]

/-- Witness for C9: the request supplies `sku`, the sizing layer also
sets `sku`, and the resolved tfvars carry the value from the request. -/
theorem c9_override_precedence_witness :
    dget? tfvSecrets "sku" = dget? reqSecrets.config "sku" :=
  c9_override_precedence catalog0 sd0 reqSecrets tfvSecrets "keyvault" kvPattern "sku"
    rfl rfl rfl (by decide) rfl

/-! ### Claim C10: the two name fallbacks diverge -/

/-- C10. When the config of a valid document omits `name` (and, per the
catalog convention, neither the sizing parameter set nor the optional
config declares a key `name`), `resolve` sets the output key `name` to
`metadata.project`, while `compute_state_key` uses the pattern name as
the name component, yielding
`business_unit/environment/project/{pattern}-{pattern}/terraform.tfstate`;
when the config does supply `name`, the name component of the state key is
exactly the rendering of that supplied value, so the two agree for all
documents only when `config.name` is supplied. -/
theorem c10_name_fallback_divergence (patterns : List (String × Pattern)) (sd : SizingDefaults)
    (r : Request) (tfv : List (String × Value)) (m : Metadata) (pname proj bu env : String)
    (pat : Pattern)
    (hm : r.metadata = some m) (hproj : m.project = some proj) (hbu : m.business_unit = some bu)
    (henv : m.environment = some env) (hp : r.pattern = some pname)
    (hpat : dget? patterns pname = some pat)
    (hname : dmem r.config "name" = false)
    (hsz : dmem (resolve_sizing sd pat (dgetD r.config "size" (.str (get_default_size sd env)))
      env) "name" = false)
    (hopt : "name" ∉ (optional_to_dict pat.optional).map Prod.fst)
    (h3 : Scripts.resolve patterns sd r = .ok tfv) :
    dget? tfv "name" = some (.str proj) ∧
    Scripts.compute_state_key r =
      bu ++ "/" ++ env ++ "/" ++ proj ++ "/" ++ pname ++ "-" ++ pname ++ "/terraform.tfstate" ∧
    (∀ (r' : Request) (v : Value), dget? r'.config "name" = some v →
      Scripts.compute_state_key r' =
        ((r'.metadata.bind (fun mm => mm.business_unit)).getD "default") ++ "/" ++
        ((r'.metadata.bind (fun mm => mm.environment)).getD "dev") ++ "/" ++
        ((r'.metadata.bind (fun mm => mm.project)).getD "unknown") ++ "/" ++
        (r'.pattern.getD "unknown") ++ "-" ++ pyStr v ++ "/terraform.tfstate") := by
  have hval := scripts_resolve_ok_valid h3
  have hparts := validation_errors_nil_parts ((scripts_valid_iff patterns r).mp hval)
  obtain ⟨m2, hm2, _, _, _, ⟨owners, how2⟩⟩ := metadata_present_of_no_error hparts.2.2.1
  have hmm : m2 = m := by
    rw [hm] at hm2
    exact (Option.some.injEq _ _).mp hm2.symm
  subst hmm
  have heq := scripts_resolve_ok_eq patterns sd r pname pat m2 env proj bu owners hval hp hpat
    hm henv hproj hbu how2
  rw [heq] at h3
  injection h3 with htfv
  subst htfv
  have hnone : dget? r.config "name" = none := dget?_eq_none_of_dmem_false hname
  refine ⟨?_, ?_, ?_⟩
  · rw [dget?_apply_conditionals]
    have hfold : dget? ((optional_to_dict pat.optional).foldl
        (fun acc kv =>
          if dmem r.config kv.1 then dset acc kv.1 (dgetD r.config kv.1 .null)
          else
            match kv.2 with
            | .dict spec =>
              if dmem spec "default" then dset acc kv.1 (dgetD spec "default" .null)
              else acc
            | _ => acc)
        (dupdate
          [("project", .str proj), ("environment", .str env), ("business_unit", .str bu),
           ("owners", owners), ("location", .str (m2.location.getD "eastus")),
           ("pattern_name", .str pname), ("name", dgetD r.config "name" (.str proj))]
          (resolve_sizing sd pat (dgetD r.config "size" (.str (get_default_size sd env))) env)))
        "name" = some (.str proj) := by
      rw [dget?_foldl_frame _ (fun acc kv k hk => opt_step_frame r.config acc kv k hk) _ _ _
        hopt]
      rw [dget?_dupdate_not_mem _ _ _ hsz]
      show some (dgetD r.config "name" (.str proj)) = some (.str proj)
      unfold dgetD
      rw [hnone]
      rfl
    rw [hfold, option_some_or]
  · simp only [Scripts.compute_state_key, hp, hm, hproj, hbu, henv, Option.getD_some,
      Option.some_bind, dgetD, hnone, Option.getD_none, pyStr]
  · intro r' v hv
    simp only [Scripts.compute_state_key, dgetD, hv, Option.getD_some]

/-- Witness for C10: a valid webapp request whose config omits `name`
produces tfvars whose `name` is the project `myapp`, while the state key
uses the pattern name `webapp` for the name component — the two diverge. -/
theorem c10_name_fallback_witness :
    dget? tfvNoName "name" = some (.str "myapp") ∧
    Scripts.compute_state_key reqNoName = "eng/dev/myapp/webapp-webapp/terraform.tfstate" := by
  have h := c10_name_fallback_divergence catalog0 sd0 reqNoName tfvNoName mdDev "webapp" "myapp"
    "eng" "dev" webPattern rfl rfl rfl rfl rfl rfl rfl rfl (by decide) rfl
  exact ⟨h.1, h.2.1.trans (by decide)⟩

/-! ### Claim C7: per-document independence of resolve_all -/

theorem resolve_all_go_cons_some (patterns : List (String × Pattern)) (sd : SizingDefaults)
    (i : Nat) (doc : Request) (rest : List (Option Request)) :
    Scripts.resolve_all_go patterns sd i (some doc :: rest) =
      match Scripts.resolve_doc_alone patterns sd i doc with
      | .ok e =>
        match Scripts.resolve_all_go patterns sd (i + 1) rest with
        | .ok results => .ok (e :: results)
        | .error err => .error err
      | .error err => .error err := rfl

theorem resolve_all_go_eq_of_ok (patterns : List (String × Pattern)) (sd : SizingDefaults)
    (documents : List (Option Request)) :
    ∀ i, (∀ p ∈ documents.enumFrom i,
        Option.all (fun d => (Scripts.resolve_doc_alone patterns sd p.1 d).isOk) p.2 = true) →
      Scripts.resolve_all_go patterns sd i documents =
        .ok ((documents.enumFrom i).filterMap
          (fun p => p.2.bind (fun d => (Scripts.resolve_doc_alone patterns sd p.1 d).toOption))) := by
  induction documents with
  | nil => intro i h; rfl
  | cons od rest ih =>
    intro i h
    have htail : ∀ p ∈ rest.enumFrom (i + 1),
        Option.all (fun d => (Scripts.resolve_doc_alone patterns sd p.1 d).isOk) p.2 = true :=
      fun p hp => h p (by rw [List.enumFrom_cons]; exact List.mem_cons_of_mem _ hp)
    cases od with
    | none =>
      rw [show Scripts.resolve_all_go patterns sd i (none :: rest) =
          Scripts.resolve_all_go patterns sd (i + 1) rest from rfl,
        ih (i + 1) htail, List.enumFrom_cons]
      simp [List.filterMap_cons]
    | some doc =>
      have hd := h (i, some doc) (by rw [List.enumFrom_cons]; exact List.mem_cons_self _ _)
      have hok : (Scripts.resolve_doc_alone patterns sd i doc).isOk = true := by
        simpa [Option.all] using hd
      obtain ⟨e, he⟩ : ∃ e, Scripts.resolve_doc_alone patterns sd i doc = .ok e := by
        cases hra : Scripts.resolve_doc_alone patterns sd i doc with
        | error err => rw [hra] at hok; simp [Except.isOk, Except.toBool] at hok
        | ok e => exact ⟨e, rfl⟩
      rw [resolve_all_go_cons_some, he, ih (i + 1) htail, List.enumFrom_cons]
      simp [List.filterMap_cons, he, Except.toOption]

/-- C7 (amended). `resolve_all` computes the entry of each document from that
document and its position alone: whenever each non-None document
standalone processing completes (it always does except for the uncaught
`KeyError` of the empty-pattern edge case), the batch result is exactly
the list of per-document results, so an invalid document or one whose
`resolve` raises the caught `ValueError` never disturbs any other
document; a document raising the uncaught `KeyError`, however, aborts
the whole batch. -/
theorem c7_batch_independence (patterns : List (String × Pattern)) (sd : SizingDefaults)
    (documents : List (Option Request))
    (h : ∀ p ∈ documents.enum,
        Option.all (fun d => (Scripts.resolve_doc_alone patterns sd p.1 d).isOk) p.2 = true) :
    Scripts.resolve_all patterns sd documents =
      .ok (documents.enum.filterMap
        (fun p => p.2.bind (fun d => (Scripts.resolve_doc_alone patterns sd p.1 d).toOption))) :=
  resolve_all_go_eq_of_ok patterns sd documents 0 h

/-- Counterexample to C7 as stated: a batch whose first document passes
validation but raises the uncaught `KeyError` aborts entirely, although
the second document on its own processes fine — so a failing document
can prevent the others from being resolved. -/
theorem c7_counterexample :
    Scripts.resolve_all catalog0 sd0 docsAborted = .error (.keyError "") ∧
    (Scripts.resolve_doc_alone catalog0 sd0 1 reqSecrets).isOk = true :=
  ⟨rfl, rfl⟩

/-- Witness for C7: a batch of a resolvable document, an empty slot, and
an invalid document produces exactly the independent per-document
results. -/
theorem c7_batch_independence_witness :
    (∀ p ∈ docsBatch.enum,
      Option.all (fun d => (Scripts.resolve_doc_alone catalog0 sd0 p.1 d).isOk) p.2 = true) ∧
    Scripts.resolve_all catalog0 sd0 docsBatch =
      .ok (docsBatch.enum.filterMap
        (fun p => p.2.bind (fun d => (Scripts.resolve_doc_alone catalog0 sd0 p.1 d).toOption))) :=
  ⟨by decide, c7_batch_independence catalog0 sd0 docsBatch (by decide)⟩
